import Mathlib

/-!
Shallow embedding of rolandogdp/nano-banana-python, covering
`src/style_pipeline.py` (the style-transfer pipeline) and the stream
decoder `_process_stream_to_memory` of `src/ui_app.py`.

Modelling conventions:
* bytes are `List Nat`; Python strings are Lean `String` (ASCII behaviour,
  which is all the program relies on for the compared literals);
* the remote generation service, `input()`, `os.path.exists` and the
  helpers living in `mix_images.py` are abstracted as an explicit
  environment record passed to the orchestrator;
* a raised Python exception is an `Except.error` carrying its message.
-/

deriving instance DecidableEq for Except

namespace NanoBanana

/-- Characters removed by Python's `str.strip()` (the ASCII whitespace
set; unicode whitespace is outside the program's inputs). -/
def pyIsSpace (c : Char) : Bool :=
  c == ' ' || c == '\t' || c == '\n' || c == '\r' || c == '\x0b' || c == '\x0c'

/-- `str.strip()` on the underlying character list: drop the whitespace
run at the front, then the whitespace run at the back. -/
def pyStripList (cs : List Char) : List Char :=
  (cs.dropWhile pyIsSpace).rdropWhile pyIsSpace

/-- Python `str.strip()`. -/
def pyStrip (s : String) : String :=
  String.mk (pyStripList s.data)

/-- Python `str.lower()` (ASCII range, which covers the approval
literals the program compares against). -/
def pyLower (s : String) : String :=
  String.mk (s.data.map Char.toLower)

/-- `google.genai.types.Blob`: the `data` field is an optional byte
string. -/
structure Blob where
  data : Option (List Nat)
  deriving DecidableEq, Repr

/-- A response part: optional text and optional inline image payload,
the two fields the repository reads. -/
structure ResponsePart where
  text : Option String
  inline_data : Option Blob
  deriving DecidableEq, Repr

/-- `candidate.content`: an optional list of parts. -/
structure Content where
  parts : Option (List ResponsePart)
  deriving DecidableEq, Repr

/-- One response candidate with its optional content. -/
structure Candidate where
  content : Option Content
  deriving DecidableEq, Repr

/-- One chunk of a streaming response. -/
structure Chunk where
  candidates : Option (List Candidate)
  deriving DecidableEq, Repr

/-- A non-streaming response (same observable shape). -/
structure Response where
  candidates : Option (List Candidate)
  deriving DecidableEq, Repr

/-- The Python truthiness test `part.inline_data and part.inline_data.data`
(src/ui_app.py line 44): yields the payload exactly when the blob is
present and its data is present and non-empty. -/
def blobBytes (p : ResponsePart) : Option (List Nat) :=
  match p.inline_data with
  | some b =>
    match b.data with
    | some d => if d.isEmpty then none else some d
    | none => none
  | none => none

/-- The per-part body of `_process_stream_to_memory`'s inner loop
(src/ui_app.py lines 43-47): image data is appended when present and
non-empty, otherwise non-empty text is appended; the accumulator is
`(images, texts)`. -/
def streamStep (acc : List (List Nat) × List String) (p : ResponsePart) :
    List (List Nat) × List String :=
  match blobBytes p with
  | some d => (acc.1 ++ [d], acc.2)
  | none =>
    match p.text with
    | some t => if t = "" then acc else (acc.1, acc.2 ++ [t])
    | none => acc

/-- The chunk guard of `_process_stream_to_memory` (src/ui_app.py lines
36-41): `chunk.candidates is None or chunk.candidates[0].content is None
or chunk.candidates[0].content.parts is None` skips the chunk; note that
indexing `candidates[0]` on a present but empty list raises `IndexError`. -/
def chunkParts (c : Chunk) : Except String (Option (List ResponsePart)) :=
  match c.candidates with
  | none => .ok none
  | some [] => .error "IndexError: list index out of range"
  | some (cand :: _) =>
    match cand.content with
    | none => .ok none
    | some content =>
      match content.parts with
      | none => .ok none
      | some ps => .ok (some ps)

/-- The chunk loop of `_process_stream_to_memory`, with the running
`(images, texts)` accumulator. -/
def processStreamAux (acc : List (List Nat) × List String) :
    List Chunk → Except String (List (List Nat) × List String)
  | [] => .ok acc
  | c :: rest =>
    match chunkParts c with
    | .error e => .error e
    | .ok none => processStreamAux acc rest
    | .ok (some ps) => processStreamAux (ps.foldl streamStep acc) rest

/-- `_process_stream_to_memory` (src/ui_app.py lines 31-48): drain the
stream into `(images, texts)`, in arrival order. -/
def _process_stream_to_memory (stream : List Chunk) :
    Except String (List (List Nat) × List String) :=
  processStreamAux ([], []) stream

/-- Python `"\n".join(parts)`. -/
def joinNewline : List String → String
  | [] => ""
  | [s] => s
  | s :: rest => s ++ "\n" ++ joinNewline rest

/-- The accumulation of `summarize_style` (src/style_pipeline.py lines
55-58): every part whose `text` is truthy contributes `part.text.strip()`,
in order. -/
def descriptionParts : List ResponsePart → List String
  | [] => []
  | p :: rest =>
    match p.text with
    | some t =>
      if t = "" then descriptionParts rest else pyStrip t :: descriptionParts rest
    | none => descriptionParts rest

/-- `StylePipeline.summarize_style` (src/style_pipeline.py lines 41-63)
as a function of the service's non-streaming response; the request
construction and network call are abstracted away. `.error` is a raised
`StylePipelineError`. -/
def summarize_style (response : Response) : Except String String :=
  match response.candidates with
  | none => .error "No style description returned by the model."
  | some [] => .error "No style description returned by the model."
  | some (cand :: _) =>
    match cand.content with
    | none => .error "No style description returned by the model."
    | some content =>
      let style_description :=
        pyStrip (joinNewline (descriptionParts (content.parts.getD [])))
      if style_description = "" then
        .error "Received an empty style description."
      else
        .ok style_description

/-- The fixed connective literal inside `build_prompt`
(src/style_pipeline.py lines 69-70). -/
def connectiveText : String :=
  "Apply the following postcard style details to the target photo while \npreserving the primary subject and composition: \n"

/-- `StylePipeline.build_prompt` (src/style_pipeline.py lines 65-72),
transcribed from the f-string. -/
def build_prompt (base_prompt style_description : String) : String :=
  base_prompt ++ "\n\n" ++
    "Apply the following postcard style details to the target photo while \npreserving the primary subject and composition: \n" ++
    style_description

/-- The last `/`-separated component of a path (the `name` used by
`pathlib.Path(...).stem`): the characters after the last slash. -/
def lastComponent (p : String) : String :=
  String.mk ((p.data.reverse.takeWhile (fun c => !(c == '/'))).reverse)

/-- `pathlib.Path(photo_path).stem`: the name with its suffix removed,
where a suffix exists when the last dot sits strictly inside the name. -/
def pathStem (p : String) : String :=
  let name := lastComponent p
  let cs := name.data
  match cs.reverse.findIdx? (fun c => c == '.') with
  | none => name
  | some j =>
    let i := cs.length - 1 - j
    if 0 < i ∧ i < cs.length - 1 then String.mk (cs.take i) else name

/-- `os.path.join` for the two-argument posix case used at
src/style_pipeline.py line 115. -/
def osPathJoin (a b : String) : String :=
  if b.data.head? = some '/' then b
  else if a = "" ∨ a.data.getLast? = some '/' then a ++ b
  else a ++ "/" ++ b

/-- The constructed `genai.Client` (only its existence matters to the
claims: it is created exactly once the key check has passed). -/
structure Client where
  api_key : String
  deriving DecidableEq, Repr

/-- `StylePipeline.__init__` (src/style_pipeline.py lines 35-39): a falsy
key (absent or empty) raises `StylePipelineError` before any client is
constructed; otherwise the client is created from the key. -/
def stylePipelineInit (api_key : Option String) : Except String Client :=
  match api_key with
  | none => .error "GEMINI_API_KEY environment variable not set."
  | some k =>
    if k = "" then .error "GEMINI_API_KEY environment variable not set."
    else .ok { api_key := k }

/-- The effectful collaborators of one `apply_style` run, abstracted as
data:
* `styleResponse`: the service's reply to the summarize request;
* `approvalInput`: the raw string returned by `input()` at line 90;
* `pathExists`: `os.path.exists`;
* `submitResult`: outcome of loading this target's parts and opening the
  generation stream (lines 103-112); a raised exception is `.error`;
* `decodeResult`: outcome of `_process_api_stream_response` (lines
  117-120). That helper lives in `mix_images.py`, which is not part of
  the sources here; per the spec it drains the stream writing the
  decoded images into the per-target directory, and a failure while
  draining raises out of it (the spec's StreamDecodeError). -/
structure Env where
  styleResponse : Response
  approvalInput : String
  pathExists : String → Bool
  submitResult : String → Except String Unit
  decodeResult : String → Except String Unit

/-- Observable outcome of one `apply_style` run:
* `summarizeRequest`: the style images carried by the summarize request,
  when that request was issued;
* `createdDirs`: directories passed to `os.makedirs`, in order;
* `skipped`: missing targets reported and skipped;
* `processed`: targets whose stream was fully decoded;
* `submitted`: number of generation requests opened;
* `aborted`: the run returned at the approval gate;
* `outcome`: `.ok ()` for a normal return, `.error` for an exception
  propagating out of `apply_style`. -/
structure RunResult where
  summarizeRequest : Option (List String)
  createdDirs : List String
  skipped : List String
  processed : List String
  submitted : Nat
  aborted : Bool
  outcome : Except String Unit
  deriving DecidableEq, Repr

/-- The per-target loop of `apply_style` (src/style_pipeline.py lines
97-120): a missing target is reported and skipped; otherwise the request
is opened, the per-target directory created, and the stream decoded. An
exception from opening or decoding propagates immediately, leaving the
remaining targets unvisited. -/
def processTargets (env : Env) (output_dir : String) :
    List String → RunResult → RunResult
  | [], acc => acc
  | photo :: rest, acc =>
    if env.pathExists photo then
      match env.submitResult photo with
      | .error e => { acc with submitted := acc.submitted + 1, outcome := .error e }
      | .ok _ =>
        let tdir := osPathJoin output_dir (pathStem photo)
        match env.decodeResult photo with
        | .error e =>
          { acc with
            submitted := acc.submitted + 1,
            createdDirs := acc.createdDirs ++ [tdir],
            outcome := .error e }
        | .ok _ =>
          processTargets env output_dir rest
            { acc with
              submitted := acc.submitted + 1,
              createdDirs := acc.createdDirs ++ [tdir],
              processed := acc.processed ++ [photo] }
    else
      processTargets env output_dir rest { acc with skipped := acc.skipped ++ [photo] }

/-- `StylePipeline.apply_style` (src/style_pipeline.py lines 74-120):
summarize (its exception propagates), compose the prompt, gate on the
normalized approval string, create the output root, then run the
per-target loop. -/
def apply_style (env : Env) (style_images : List String)
    (target_photos : List String) (base_prompt output_dir : String) : RunResult :=
  match summarize_style env.styleResponse with
  | .error e =>
    { summarizeRequest := some style_images, createdDirs := [], skipped := [],
      processed := [], submitted := 0, aborted := false, outcome := .error e }
  | .ok style_description =>
    let _final_prompt := build_prompt base_prompt style_description
    let approval := pyLower (pyStrip env.approvalInput)
    if !(approval == "y" || approval == "yes") then
      { summarizeRequest := some style_images, createdDirs := [], skipped := [],
        processed := [], submitted := 0, aborted := true, outcome := .ok () }
    else
      processTargets env output_dir target_photos
        { summarizeRequest := some style_images, createdDirs := [output_dir],
          skipped := [], processed := [], submitted := 0, aborted := false,
          outcome := .ok () }

/-- The parsed command-line arguments consumed by `main`. -/
structure Args where
  style_images : List String
  photos : List String
  base_prompt : String
  output_dir : String

/-- `main` (src/style_pipeline.py lines 160-179), as a function of the
parsed arguments, the `GEMINI_API_KEY` environment value, and the run
environment. Returns the exit code together with the `apply_style` run
when one happened. A caught `StylePipelineError` returns 1; an uncaught
exception out of `apply_style` also ends the process unsuccessfully and
is likewise modelled as exit code 1. -/
def mainRun (args : Args) (gemini_api_key : Option String) (env : Env) :
    Nat × Option RunResult :=
  if args.style_images.length < 2 then (1, none)
  else
    match stylePipelineInit gemini_api_key with
    | .error _ => (1, none)
    | .ok _ =>
      let r := apply_style env args.style_images args.photos
        args.base_prompt args.output_dir
      match r.outcome with
      | .error _ => (1, some r)
      | .ok _ => (0, some r)

/-- Python truthiness of `part.text` (non-`None` and non-empty). -/
def textTruthy (p : ResponsePart) : Bool :=
  match p.text with
  | some t => !(t == "")
  | none => false

/-- The text carried by a part, defaulting to the empty string. -/
def textValue (p : ResponsePart) : String := p.text.getD ""

/-- The summary formula as the spec words it (§4.2 step 3): the raw texts
of the text-bearing parts, in order, joined by newline, with only the
joined whole stripped. Stated for comparison with `summarize_style`. -/
def specSummaryJoin (ps : List ResponsePart) : String :=
  pyStrip (joinNewline ((ps.filter textTruthy).map textValue))

/-- The amended summary formula: each text-bearing fragment is stripped
individually, the results joined by newline, and the joined whole
stripped again. -/
def amendedSummaryJoin (ps : List ResponsePart) : String :=
  pyStrip (joinNewline ((ps.filter textTruthy).map (fun p => pyStrip (textValue p))))

/-! Concrete fixtures used by witnesses and counterexamples. -/

/-- A text-only part. -/
def textPart (t : String) : ResponsePart := { text := some t, inline_data := none }

/-- An image-only part. -/
def imagePart (d : List Nat) : ResponsePart :=
  { text := none, inline_data := some { data := some d } }

/-- A one-candidate response whose single part carries the given text. -/
def textResponse (t : String) : Response :=
  { candidates := some [{ content := some { parts := some [textPart t] } }] }

/-- A chunk carrying exactly the given parts. -/
def partsChunk (ps : List ResponsePart) : Chunk :=
  { candidates := some [{ content := some { parts := some ps } }] }

/-- A one-candidate non-streaming response carrying the given parts. -/
def partsResponse (ps : List ResponsePart) : Response :=
  { candidates := some [{ content := some { parts := some ps } }] }

/-- A heartbeat chunk with no candidates field. -/
def emptyChunk : Chunk := { candidates := none }

/-- Environment: summarize succeeds with "desc", approval is the given
string, every path exists, every submission and decode succeeds. -/
def happyEnv (approval : String) : Env :=
  { styleResponse := textResponse "desc"
    approvalInput := approval
    pathExists := fun _ => true
    submitResult := fun _ => .ok ()
    decodeResult := fun _ => .ok () }

/-- Environment where opening the generation stream for `t1.jpg` raises a
network error and everything else succeeds. -/
def submitFailEnv : Env :=
  { styleResponse := textResponse "desc"
    approvalInput := "y"
    pathExists := fun _ => true
    submitResult := fun p => if p = "t1.jpg" then .error "network failure" else .ok ()
    decodeResult := fun _ => .ok () }

/-- Environment where `missing.jpg` does not exist and everything else
succeeds. -/
def missingEnv : Env :=
  { styleResponse := textResponse "desc"
    approvalInput := "y"
    pathExists := fun p => !(p == "missing.jpg")
    submitResult := fun _ => .ok ()
    decodeResult := fun _ => .ok () }

/-- Command-line arguments fixture with two style images. -/
def argsTwo : Args :=
  { style_images := ["s1.jpg", "s2.jpg"], photos := ["t1.jpg"],
    base_prompt := "base", output_dir := "out" }

/-- Command-line arguments fixture with a single style image. -/
def argsOne : Args :=
  { style_images := ["s1.jpg"], photos := ["t1.jpg"],
    base_prompt := "base", output_dir := "out" }

/-! Helper lemmas about the Python string primitives. -/

theorem dropWhile_head_false (p : Char → Bool) (cs : List Char) (b : Char) (bs : List Char)
    (h : cs.dropWhile p = b :: bs) : p b = false := by
  induction cs with
  | nil => simp [List.dropWhile] at h
  | cons a t ih =>
    by_cases hpa : p a
    · rw [List.dropWhile_cons_of_pos hpa] at h
      exact ih h
    · rw [List.dropWhile_cons_of_neg hpa] at h
      injection h with h1 h2
      rw [← h1]
      simpa using hpa

theorem stripList_dropWhile (cs : List Char) :
    (pyStripList cs).dropWhile pyIsSpace = pyStripList cs := by
  unfold pyStripList
  cases hB : (cs.dropWhile pyIsSpace).rdropWhile pyIsSpace with
  | nil => simp
  | cons b bs =>
    have hpre : (cs.dropWhile pyIsSpace).rdropWhile pyIsSpace <+: cs.dropWhile pyIsSpace :=
      List.rdropWhile_prefix pyIsSpace (cs.dropWhile pyIsSpace)
    rw [hB] at hpre
    obtain ⟨t, ht⟩ := hpre
    have hb : pyIsSpace b = false := by
      apply dropWhile_head_false pyIsSpace cs b (bs ++ t)
      rw [← ht]
      simp
    rw [List.dropWhile_cons_of_neg]
    simp [hb]

theorem pyStripList_idem (cs : List Char) :
    pyStripList (pyStripList cs) = pyStripList cs := by
  calc pyStripList (pyStripList cs)
      = ((pyStripList cs).dropWhile pyIsSpace).rdropWhile pyIsSpace := rfl
    _ = (pyStripList cs).rdropWhile pyIsSpace := by rw [stripList_dropWhile]
    _ = pyStripList cs := by
        unfold pyStripList
        exact List.rdropWhile_idempotent pyIsSpace (cs.dropWhile pyIsSpace)

theorem pyStrip_idem (s : String) : pyStrip (pyStrip s) = pyStrip s := by
  unfold pyStrip
  rw [show (String.mk (pyStripList s.data)).data = pyStripList s.data from rfl,
    pyStripList_idem]

theorem pyStripList_eq_nil_of_all_space (cs : List Char)
    (h : ∀ c ∈ cs, pyIsSpace c = true) : pyStripList cs = [] := by
  unfold pyStripList
  rw [List.dropWhile_eq_nil_iff.mpr h]
  simp [List.rdropWhile_nil]

theorem joinNewline_all_empty (l : List String) (h : ∀ x ∈ l, x = "") :
    ∀ c ∈ (joinNewline l).data, pyIsSpace c = true := by
  induction l with
  | nil => simp [joinNewline]
  | cons x rest ih =>
    cases rest with
    | nil =>
      have hx := h x (by simp)
      simp [joinNewline, hx]
    | cons y t =>
      have hx := h x (by simp)
      intro c hc
      rw [show joinNewline (x :: y :: t) = x ++ "\n" ++ joinNewline (y :: t) from rfl,
        hx] at hc
      rw [String.data_append, String.data_append] at hc
      rcases List.mem_append.mp hc with hc1 | hc2
      · rcases List.mem_append.mp hc1 with hc3 | hc4
        · simp at hc3
        · have : c = '\n' := by simpa using hc4
          subst this
          decide
      · exact ih (fun z hz => h z (by simp [hz])) c hc2

theorem pyStrip_joinNewline_all_empty (l : List String) (h : ∀ x ∈ l, x = "") :
    pyStrip (joinNewline l) = "" := by
  unfold pyStrip
  rw [pyStripList_eq_nil_of_all_space _ (joinNewline_all_empty l h)]

theorem descriptionParts_eq_filter_map (ps : List ResponsePart) :
    descriptionParts ps = (ps.filter textTruthy).map (fun p => pyStrip (textValue p)) := by
  induction ps with
  | nil => rfl
  | cons p rest ih =>
    cases hp : p.text with
    | none => simp [descriptionParts, List.filter_cons, textTruthy, hp, ih]
    | some t =>
      by_cases ht : t = ""
      · simp [descriptionParts, List.filter_cons, textTruthy, textValue, hp, ht, ih]
      · simp [descriptionParts, List.filter_cons, textTruthy, textValue, hp, ht, ih]

theorem descriptionParts_all_empty (ps : List ResponsePart)
    (h : ∀ p ∈ ps, ∀ t, p.text = some t → pyStrip t = "") :
    ∀ x ∈ descriptionParts ps, x = "" := by
  induction ps with
  | nil => simp [descriptionParts]
  | cons p rest ih =>
    have ihr := ih (fun q hq => h q (by simp [hq]))
    cases hp : p.text with
    | none =>
      simpa [descriptionParts, hp] using ihr
    | some t =>
      by_cases ht : t = ""
      · simpa [descriptionParts, hp, ht] using ihr
      · intro x hx
        rw [show descriptionParts (p :: rest) =
            match p.text with
            | some t =>
              if t = "" then descriptionParts rest else pyStrip t :: descriptionParts rest
            | none => descriptionParts rest from rfl, hp] at hx
        simp only [ht, if_false] at hx
        rcases List.mem_cons.mp hx with hx1 | hx2
        · rw [hx1]
          exact h p (by simp) t hp
        · exact ihr x hx2

/-! Behaviour of the per-target loop when every existing target
succeeds. -/

theorem processTargets_all_ok (env : Env) (od : String) (photos : List String)
    (acc : RunResult)
    (h : ∀ p ∈ photos, env.pathExists p = true →
      env.submitResult p = .ok () ∧ env.decodeResult p = .ok ()) :
    processTargets env od photos acc =
      { acc with
        skipped := acc.skipped ++ photos.filter (fun p => !(env.pathExists p)),
        processed := acc.processed ++ photos.filter (fun p => env.pathExists p),
        createdDirs := acc.createdDirs ++
          (photos.filter (fun p => env.pathExists p)).map
            (fun p => osPathJoin od (pathStem p)),
        submitted := acc.submitted +
          (photos.filter (fun p => env.pathExists p)).length } := by
  induction photos generalizing acc with
  | nil =>
    cases acc
    simp [processTargets]
  | cons p rest ih =>
    by_cases he : env.pathExists p = true
    · obtain ⟨hsub, hdec⟩ := h p (by simp) he
      rw [show processTargets env od (p :: rest) acc =
          (if env.pathExists p then
            match env.submitResult p with
            | .error e => { acc with submitted := acc.submitted + 1, outcome := .error e }
            | .ok _ =>
              match env.decodeResult p with
              | .error e =>
                { acc with
                  submitted := acc.submitted + 1,
                  createdDirs := acc.createdDirs ++ [osPathJoin od (pathStem p)],
                  outcome := .error e }
              | .ok _ =>
                processTargets env od rest
                  { acc with
                    submitted := acc.submitted + 1,
                    createdDirs := acc.createdDirs ++ [osPathJoin od (pathStem p)],
                    processed := acc.processed ++ [p] }
          else
            processTargets env od rest { acc with skipped := acc.skipped ++ [p] })
          from rfl]
      rw [if_pos he, hsub, hdec]
      rw [ih _ (fun q hq => h q (by simp [hq]))]
      cases acc
      simp [List.filter_cons, he]
      omega
    · have he' : env.pathExists p = false := by
        cases hx : env.pathExists p
        · rfl
        · exact absurd hx he
      rw [show processTargets env od (p :: rest) acc =
          (if env.pathExists p then
            match env.submitResult p with
            | .error e => { acc with submitted := acc.submitted + 1, outcome := .error e }
            | .ok _ =>
              match env.decodeResult p with
              | .error e =>
                { acc with
                  submitted := acc.submitted + 1,
                  createdDirs := acc.createdDirs ++ [osPathJoin od (pathStem p)],
                  outcome := .error e }
              | .ok _ =>
                processTargets env od rest
                  { acc with
                    submitted := acc.submitted + 1,
                    createdDirs := acc.createdDirs ++ [osPathJoin od (pathStem p)],
                    processed := acc.processed ++ [p] }
          else
            processTargets env od rest { acc with skipped := acc.skipped ++ [p] })
          from rfl]
      rw [if_neg (by simp [he'])]
      rw [ih _ (fun q hq => h q (by simp [hq]))]
      cases acc
      simp [List.filter_cons, he']

theorem processTargets_append_ok (env : Env) (od : String) (pre l2 : List String)
    (acc : RunResult)
    (hgood : ∀ q ∈ pre, env.pathExists q = true →
      env.submitResult q = .ok () ∧ env.decodeResult q = .ok ()) :
    processTargets env od (pre ++ l2) acc =
      processTargets env od l2 (processTargets env od pre acc) := by
  induction pre generalizing acc with
  | nil => simp [processTargets]
  | cons q pre ih =>
    by_cases he : env.pathExists q = true
    · obtain ⟨hsub, hdec⟩ := hgood q (by simp) he
      rw [List.cons_append]
      rw [show processTargets env od (q :: (pre ++ l2)) acc =
          (if env.pathExists q then
            match env.submitResult q with
            | .error e => { acc with submitted := acc.submitted + 1, outcome := .error e }
            | .ok _ =>
              match env.decodeResult q with
              | .error e =>
                { acc with
                  submitted := acc.submitted + 1,
                  createdDirs := acc.createdDirs ++ [osPathJoin od (pathStem q)],
                  outcome := .error e }
              | .ok _ =>
                processTargets env od (pre ++ l2)
                  { acc with
                    submitted := acc.submitted + 1,
                    createdDirs := acc.createdDirs ++ [osPathJoin od (pathStem q)],
                    processed := acc.processed ++ [q] }
          else
            processTargets env od (pre ++ l2) { acc with skipped := acc.skipped ++ [q] })
          from rfl]
      rw [show processTargets env od (q :: pre) acc =
          (if env.pathExists q then
            match env.submitResult q with
            | .error e => { acc with submitted := acc.submitted + 1, outcome := .error e }
            | .ok _ =>
              match env.decodeResult q with
              | .error e =>
                { acc with
                  submitted := acc.submitted + 1,
                  createdDirs := acc.createdDirs ++ [osPathJoin od (pathStem q)],
                  outcome := .error e }
              | .ok _ =>
                processTargets env od pre
                  { acc with
                    submitted := acc.submitted + 1,
                    createdDirs := acc.createdDirs ++ [osPathJoin od (pathStem q)],
                    processed := acc.processed ++ [q] }
          else
            processTargets env od pre { acc with skipped := acc.skipped ++ [q] })
          from rfl]
      rw [if_pos he, if_pos he, hsub, hdec]
      exact ih _ (fun z hz hez => hgood z (by simp [hz]) hez)
    · have he' : env.pathExists q = false := by
        cases hx : env.pathExists q
        · rfl
        · exact absurd hx he
      rw [List.cons_append]
      rw [show processTargets env od (q :: (pre ++ l2)) acc =
          (if env.pathExists q then
            match env.submitResult q with
            | .error e => { acc with submitted := acc.submitted + 1, outcome := .error e }
            | .ok _ =>
              match env.decodeResult q with
              | .error e =>
                { acc with
                  submitted := acc.submitted + 1,
                  createdDirs := acc.createdDirs ++ [osPathJoin od (pathStem q)],
                  outcome := .error e }
              | .ok _ =>
                processTargets env od (pre ++ l2)
                  { acc with
                    submitted := acc.submitted + 1,
                    createdDirs := acc.createdDirs ++ [osPathJoin od (pathStem q)],
                    processed := acc.processed ++ [q] }
          else
            processTargets env od (pre ++ l2) { acc with skipped := acc.skipped ++ [q] })
          from rfl]
      rw [show processTargets env od (q :: pre) acc =
          (if env.pathExists q then
            match env.submitResult q with
            | .error e => { acc with submitted := acc.submitted + 1, outcome := .error e }
            | .ok _ =>
              match env.decodeResult q with
              | .error e =>
                { acc with
                  submitted := acc.submitted + 1,
                  createdDirs := acc.createdDirs ++ [osPathJoin od (pathStem q)],
                  outcome := .error e }
              | .ok _ =>
                processTargets env od pre
                  { acc with
                    submitted := acc.submitted + 1,
                    createdDirs := acc.createdDirs ++ [osPathJoin od (pathStem q)],
                    processed := acc.processed ++ [q] }
          else
            processTargets env od pre { acc with skipped := acc.skipped ++ [q] })
          from rfl]
      rw [if_neg (by simp [he']), if_neg (by simp [he'])]
      exact ih _ (fun z hz hez => hgood z (by simp [hz]) hez)

/-- Unfolding equation for one step of the per-target loop. -/
theorem processTargets_cons (env : Env) (od p : String) (rest : List String)
    (acc : RunResult) :
    processTargets env od (p :: rest) acc =
      (if env.pathExists p then
        match env.submitResult p with
        | .error e => { acc with submitted := acc.submitted + 1, outcome := .error e }
        | .ok _ =>
          match env.decodeResult p with
          | .error e =>
            { acc with
              submitted := acc.submitted + 1,
              createdDirs := acc.createdDirs ++ [osPathJoin od (pathStem p)],
              outcome := .error e }
          | .ok _ =>
            processTargets env od rest
              { acc with
                submitted := acc.submitted + 1,
                createdDirs := acc.createdDirs ++ [osPathJoin od (pathStem p)],
                processed := acc.processed ++ [p] }
      else
        processTargets env od rest { acc with skipped := acc.skipped ++ [p] }) := rfl

/-- The per-target loop never touches the `aborted` flag or the recorded
summarize request. -/
theorem processTargets_preserves (env : Env) (od : String) (photos : List String)
    (acc : RunResult) :
    (processTargets env od photos acc).aborted = acc.aborted ∧
    (processTargets env od photos acc).summarizeRequest = acc.summarizeRequest := by
  induction photos generalizing acc with
  | nil => exact ⟨rfl, rfl⟩
  | cons p rest ih =>
    rw [processTargets_cons]
    by_cases he : env.pathExists p = true
    · rw [if_pos he]
      cases hsub : env.submitResult p with
      | error e => exact ⟨rfl, rfl⟩
      | ok u =>
        cases hdec : env.decodeResult p with
        | error e => exact ⟨rfl, rfl⟩
        | ok v => exact ih _
    · rw [if_neg he]
      exact ih _

/-- Skipping a guarded-out chunk leaves the decode of the rest of the
stream unchanged, wherever the chunk sits. -/
theorem processStreamAux_skip (c : Chunk) (hc : chunkParts c = .ok none)
    (acc : List (List Nat) × List String) (pre post : List Chunk) :
    processStreamAux acc (pre ++ c :: post) = processStreamAux acc (pre ++ post) := by
  induction pre generalizing acc with
  | nil => simp [processStreamAux, hc]
  | cons d pre ih =>
    simp only [List.cons_append, processStreamAux]
    cases hd : chunkParts d with
    | error e => rfl
    | ok o =>
      cases o with
      | none => exact ih acc
      | some ps => exact ih _

/-! The claims. -/

/-- C5: `build_prompt` is a pure, deterministic function equal to the
concatenation of the base prompt, a blank line, the fixed connective
text and the style description, for all inputs. -/
theorem build_prompt_is_concatenation (base_prompt style_description : String) :
    build_prompt base_prompt style_description =
      base_prompt ++ "\n\n" ++ connectiveText ++ style_description := rfl

/-- C3: `summarize_style` either returns a non-empty whitespace-stripped
string or raises `StylePipelineError`; it raises when the response has no
candidate, the first candidate has no content, or every text fragment
strips to the empty string. -/
theorem summarize_style_nonempty_or_error :
    (∀ r s, summarize_style r = .ok s → s ≠ "" ∧ pyStrip s = s) ∧
    (∀ r : Response, r.candidates = none ∨ r.candidates = some [] →
      summarize_style r = .error "No style description returned by the model.") ∧
    (∀ (r : Response) cand rest, r.candidates = some (cand :: rest) →
      cand.content = none →
      summarize_style r = .error "No style description returned by the model.") ∧
    (∀ (r : Response) cand rest ct, r.candidates = some (cand :: rest) →
      cand.content = some ct →
      (∀ p ∈ ct.parts.getD [], ∀ t, p.text = some t → pyStrip t = "") →
      summarize_style r = .error "Received an empty style description.") := by
  refine ⟨?_, ?_, ?_, ?_⟩
  · intro r s h
    rcases hr : r.candidates with _ | cs
    · simp [summarize_style, hr] at h
    · rcases cs with _ | ⟨cand, rest⟩
      · simp [summarize_style, hr] at h
      · rcases hc : cand.content with _ | ct
        · simp [summarize_style, hr, hc] at h
        · simp only [summarize_style, hr, hc] at h
          split at h
          · exact absurd h (by simp)
          · rename_i hne
            injection h with hs
            refine ⟨?_, ?_⟩
            · rw [← hs]
              exact hne
            · rw [← hs, pyStrip_idem]
  · intro r hr
    rcases hr with hr | hr <;> simp [summarize_style, hr]
  · intro r cand rest hr hc
    simp [summarize_style, hr, hc]
  · intro r cand rest ct hr hc hall
    have h1 : ∀ x ∈ descriptionParts (ct.parts.getD []), x = "" :=
      descriptionParts_all_empty _ hall
    have h2 : pyStrip (joinNewline (descriptionParts (ct.parts.getD []))) = "" :=
      pyStrip_joinNewline_all_empty _ h1
    simp [summarize_style, hr, hc, h2]

theorem summarize_style_nonempty_or_error_witness :
    ("desc" : String) ≠ "" ∧ pyStrip "desc" = "desc" :=
  summarize_style_nonempty_or_error.1 (textResponse "desc") "desc" (by decide)

/-- C4 counterexample: on a first candidate with fragment texts "a " and
"b", the code returns "a\nb" (each fragment stripped before joining),
while the claim's formula — join the raw fragment texts with newline and
strip only the joined whole — yields "a \nb". -/
theorem summarize_style_not_spec_join :
    summarize_style (partsResponse [textPart "a ", textPart "b"]) = .ok "a\nb" ∧
    specSummaryJoin [textPart "a ", textPart "b"] = "a \nb" ∧
    ("a\nb" : String) ≠ "a \nb" :=
  ⟨by decide, by decide, by decide⟩

/-- C4 (amended): for every response whose first candidate carries
content, `summarize_style` concatenates the text-bearing fragments of the
first candidate in order, each fragment individually stripped, joined by
newline, and strips the joined whole; it returns that string when it is
non-empty and raises otherwise. -/
theorem summarize_style_eq_amended_join (r : Response) (cand : Candidate)
    (rest : List Candidate) (ct : Content)
    (hr : r.candidates = some (cand :: rest)) (hc : cand.content = some ct) :
    summarize_style r =
      (if amendedSummaryJoin (ct.parts.getD []) = "" then
        .error "Received an empty style description."
      else .ok (amendedSummaryJoin (ct.parts.getD []))) := by
  have key : pyStrip (joinNewline (descriptionParts (ct.parts.getD []))) =
      amendedSummaryJoin (ct.parts.getD []) := by
    rw [amendedSummaryJoin, descriptionParts_eq_filter_map]
  simp only [summarize_style, hr, hc, key]

theorem summarize_style_eq_amended_join_witness :
    summarize_style (partsResponse [textPart " x ", textPart "b"]) =
      (if amendedSummaryJoin [textPart " x ", textPart "b"] = "" then
        .error "Received an empty style description."
      else .ok (amendedSummaryJoin [textPart " x ", textPart "b"])) :=
  summarize_style_eq_amended_join (partsResponse [textPart " x ", textPart "b"])
    { content := some { parts := some [textPart " x ", textPart "b"] } }
    [] { parts := some [textPart " x ", textPart "b"] } rfl rfl

/-- C2: `apply_style` normalizes the approval response by trimming and
lower-casing; unless the normalized value is exactly "y" or "yes" it
returns with no request submitted and no directory created, and an
affirmative value (such as "Y" up to the normalization) proceeds past
the gate. -/
theorem apply_style_approval_gate (env : Env) (si tp : List String) (bp od d : String)
    (hs : summarize_style env.styleResponse = .ok d) :
    (pyLower (pyStrip env.approvalInput) ≠ "y" →
      pyLower (pyStrip env.approvalInput) ≠ "yes" →
      apply_style env si tp bp od =
        { summarizeRequest := some si, createdDirs := [], skipped := [],
          processed := [], submitted := 0, aborted := true, outcome := .ok () }) ∧
    ((pyLower (pyStrip env.approvalInput) = "y" ∨
      pyLower (pyStrip env.approvalInput) = "yes") →
      (apply_style env si tp bp od).aborted = false) ∧
    pyLower (pyStrip " Y ") = "y" ∧ pyLower (pyStrip "YES") = "yes" := by
  refine ⟨?_, ?_, by decide, by decide⟩
  · intro h1 h2
    simp only [apply_style, hs]
    rw [if_pos (by simp [h1, h2])]
  · intro h
    simp only [apply_style, hs]
    rw [if_neg (by rcases h with h | h <;> simp [h])]
    rw [(processTargets_preserves env od tp _).1]

theorem apply_style_approval_gate_witness :
    apply_style (happyEnv "n") ["s1.jpg", "s2.jpg"] ["t1.jpg"] "base" "out" =
      { summarizeRequest := some ["s1.jpg", "s2.jpg"], createdDirs := [],
        skipped := [], processed := [], submitted := 0, aborted := true,
        outcome := .ok () } ∧
    (apply_style (happyEnv " Y ") ["s1.jpg", "s2.jpg"] ["t1.jpg"] "base" "out").aborted =
      false :=
  ⟨(apply_style_approval_gate (happyEnv "n") ["s1.jpg", "s2.jpg"] ["t1.jpg"]
      "base" "out" "desc" (by decide)).1 (by decide) (by decide),
   (apply_style_approval_gate (happyEnv " Y ") ["s1.jpg", "s2.jpg"] ["t1.jpg"]
      "base" "out" "desc" (by decide)).2.1 (Or.inl (by decide))⟩

/-- C6: in an approved run whose batch is `pre ++ k :: post` where `k`
does not exist and every other target exists and succeeds, `apply_style`
skips exactly `k`, processes all remaining targets, and creates the
output root plus one directory per target other than `k`. -/
theorem apply_style_missing_target_skipped (env : Env) (si : List String)
    (bp od d : String) (pre post : List String) (k : String)
    (hs : summarize_style env.styleResponse = .ok d)
    (ha : pyLower (pyStrip env.approvalInput) = "y" ∨
      pyLower (pyStrip env.approvalInput) = "yes")
    (hk : env.pathExists k = false)
    (hgood : ∀ p ∈ pre ++ post, env.pathExists p = true ∧
      env.submitResult p = .ok () ∧ env.decodeResult p = .ok ()) :
    apply_style env si (pre ++ k :: post) bp od =
      { summarizeRequest := some si,
        createdDirs := od :: (pre ++ post).map (fun p => osPathJoin od (pathStem p)),
        skipped := [k],
        processed := pre ++ post,
        submitted := (pre ++ post).length,
        aborted := false,
        outcome := .ok () } := by
  have hpre_ex : pre.filter (fun p => env.pathExists p) = pre :=
    List.filter_eq_self.mpr (fun a ha2 => by
      simp [(hgood a (List.mem_append_left post ha2)).1])
  have hpost_ex : post.filter (fun p => env.pathExists p) = post :=
    List.filter_eq_self.mpr (fun a ha2 => by
      simp [(hgood a (List.mem_append_right pre ha2)).1])
  have hpre_nex : pre.filter (fun p => !env.pathExists p) = [] := by
    rw [List.filter_eq_nil_iff]
    intro a ha2
    simp [(hgood a (List.mem_append_left post ha2)).1]
  have hpost_nex : post.filter (fun p => !env.pathExists p) = [] := by
    rw [List.filter_eq_nil_iff]
    intro a ha2
    simp [(hgood a (List.mem_append_right pre ha2)).1]
  simp only [apply_style, hs]
  rw [if_neg (by rcases ha with h | h <;> simp [h])]
  rw [processTargets_all_ok env od (pre ++ k :: post) _ (by
    intro p hp hep
    rcases List.mem_append.mp hp with hp1 | hp2
    · exact (hgood p (List.mem_append_left post hp1)).2
    · rcases List.mem_cons.mp hp2 with hpk | hp3
      · rw [hpk] at hep
        rw [hk] at hep
        cases hep
      · exact (hgood p (List.mem_append_right pre hp3)).2)]
  simp [List.filter_append, List.filter_cons, hk, hpre_ex, hpost_ex, hpre_nex, hpost_nex]

theorem apply_style_missing_target_skipped_witness :
    apply_style missingEnv ["s1.jpg", "s2.jpg"] (["a.jpg"] ++ "missing.jpg" :: ["b.jpg"])
      "base" "out" =
      { summarizeRequest := some ["s1.jpg", "s2.jpg"],
        createdDirs := "out" ::
          (["a.jpg"] ++ ["b.jpg"]).map (fun p => osPathJoin "out" (pathStem p)),
        skipped := ["missing.jpg"],
        processed := ["a.jpg"] ++ ["b.jpg"],
        submitted := (["a.jpg"] ++ ["b.jpg"]).length,
        aborted := false,
        outcome := .ok () } :=
  apply_style_missing_target_skipped missingEnv ["s1.jpg", "s2.jpg"] "base" "out"
    "desc" ["a.jpg"] ["b.jpg"] "missing.jpg" (by decide) (Or.inl (by decide))
    (by decide) (by decide)

/-- C1 counterexample: two existing targets, and opening the generation
stream for the first raises a network error; `apply_style` ends with that
error and the second target is never processed — the per-target failure
is fatal to the batch, contradicting the claim. -/
theorem apply_style_failure_not_contained :
    (apply_style submitFailEnv ["s1.jpg", "s2.jpg"] ["t1.jpg", "t2.jpg"]
        "base" "out").outcome = .error "network failure" ∧
    (apply_style submitFailEnv ["s1.jpg", "s2.jpg"] ["t1.jpg", "t2.jpg"]
        "base" "out").processed = [] :=
  ⟨by decide, by decide⟩

/-- C1 (amended): after approval, a submission or decoding failure for
one target propagates out of `apply_style` as that error and aborts the
batch: exactly the targets before the failing one are processed, and the
targets after it are never attempted. -/
theorem apply_style_failure_aborts_batch (env : Env) (si : List String)
    (bp od d e : String) (pre rest : List String) (p : String)
    (hs : summarize_style env.styleResponse = .ok d)
    (ha : pyLower (pyStrip env.approvalInput) = "y" ∨
      pyLower (pyStrip env.approvalInput) = "yes")
    (hgood : ∀ q ∈ pre, env.pathExists q = true ∧
      env.submitResult q = .ok () ∧ env.decodeResult q = .ok ())
    (hp : env.pathExists p = true)
    (hfail : env.submitResult p = .error e ∨
      (env.submitResult p = .ok () ∧ env.decodeResult p = .error e)) :
    (apply_style env si (pre ++ p :: rest) bp od).outcome = .error e ∧
    (apply_style env si (pre ++ p :: rest) bp od).processed = pre := by
  have hpre_ex : pre.filter (fun q => env.pathExists q) = pre :=
    List.filter_eq_self.mpr (fun a ha2 => by simp [(hgood a ha2).1])
  simp only [apply_style, hs]
  rw [if_neg (by rcases ha with h | h <;> simp [h])]
  rw [processTargets_append_ok env od pre (p :: rest) _
    (fun q hq _ => (hgood q hq).2)]
  rw [processTargets_all_ok env od pre _ (fun q hq _ => (hgood q hq).2)]
  rw [processTargets_cons]
  rw [if_pos hp]
  rcases hfail with hf | ⟨hf1, hf2⟩
  · rw [hf]
    constructor
    · rfl
    · simp [hpre_ex]
  · rw [hf1, hf2]
    constructor
    · rfl
    · simp [hpre_ex]

theorem apply_style_failure_aborts_batch_witness :
    (apply_style submitFailEnv ["s1.jpg", "s2.jpg"] ([] ++ "t1.jpg" :: ["t2.jpg"])
        "base" "out").outcome = .error "network failure" ∧
    (apply_style submitFailEnv ["s1.jpg", "s2.jpg"] ([] ++ "t1.jpg" :: ["t2.jpg"])
        "base" "out").processed = [] :=
  apply_style_failure_aborts_batch submitFailEnv ["s1.jpg", "s2.jpg"] "base" "out"
    "desc" "network failure" [] ["t2.jpg"] "t1.jpg" (by decide) (Or.inl (by decide))
    (by decide) (by decide) (Or.inl (by decide))

/-- C7 counterexample: invoked directly with a single style image, the
core `apply_style` performs no arity check: it issues the summarize
request carrying that one image and completes the whole run instead of
rejecting it. -/
theorem apply_style_single_style_image_proceeds :
    (apply_style (happyEnv "y") ["s1.jpg"] ["t1.jpg"] "base" "out").summarizeRequest =
      some ["s1.jpg"] ∧
    apply_style (happyEnv "y") ["s1.jpg"] ["t1.jpg"] "base" "out" =
      { summarizeRequest := some ["s1.jpg"], createdDirs := ["out", "out/t1"],
        skipped := [], processed := ["t1.jpg"], submitted := 1, aborted := false,
        outcome := .ok () } :=
  ⟨by decide, by decide⟩

/-- C7 (amended): `main` rejects fewer than two style images with exit
code 1 before constructing the pipeline or issuing any request, and with
two or more (and a working pipeline) runs `apply_style`; the core
`apply_style` itself performs no arity check — it always issues the
summarize request carrying exactly the style images it was given. -/
theorem main_min_two_style_images (args : Args) (key : Option String) (env : Env)
    (c : Client) :
    (args.style_images.length < 2 → mainRun args key env = (1, none)) ∧
    (2 ≤ args.style_images.length → stylePipelineInit key = .ok c →
      (mainRun args key env).2 =
        some (apply_style env args.style_images args.photos
          args.base_prompt args.output_dir)) ∧
    (∀ (e2 : Env) (si tp : List String) (bp od : String),
      (apply_style e2 si tp bp od).summarizeRequest = some si) := by
  refine ⟨?_, ?_, ?_⟩
  · intro h
    unfold mainRun
    rw [if_pos h]
  · intro h2 hkey
    unfold mainRun
    rw [if_neg (by omega), hkey]
    cases houtcome : (apply_style env args.style_images args.photos
        args.base_prompt args.output_dir).outcome with
    | error e => simp [houtcome]
    | ok u => simp [houtcome]
  · intro e2 si tp bp od
    cases hs : summarize_style e2.styleResponse with
    | error e => simp [apply_style, hs]
    | ok d =>
      simp only [apply_style, hs]
      split
      · rfl
      · rw [(processTargets_preserves e2 od tp _).2]

theorem main_min_two_style_images_witness :
    mainRun argsOne (some "k") (happyEnv "y") = (1, none) ∧
    (mainRun argsTwo (some "k") (happyEnv "y")).2 =
      some (apply_style (happyEnv "y") argsTwo.style_images argsTwo.photos
        argsTwo.base_prompt argsTwo.output_dir) :=
  ⟨(main_min_two_style_images argsOne (some "k") (happyEnv "y")
      { api_key := "k" }).1 (by decide),
   (main_min_two_style_images argsTwo (some "k") (happyEnv "y")
      { api_key := "k" }).2.1 (by decide) (by decide)⟩

/-- C8: with the credential absent, `StylePipeline` construction raises
`StylePipelineError` before any client is created, and `main` ends the
run with exit code 1 without ever invoking `apply_style` (hence before
any network activity). -/
theorem missing_api_key_fatal (args : Args) (env : Env) :
    stylePipelineInit none = .error "GEMINI_API_KEY environment variable not set." ∧
    (∀ c : Client, stylePipelineInit none ≠ .ok c) ∧
    mainRun args none env = (1, none) := by
  refine ⟨rfl, fun c h => by simp [stylePipelineInit] at h, ?_⟩
  unfold mainRun
  by_cases h : args.style_images.length < 2
  · rw [if_pos h]
  · rw [if_neg h]
    rfl

theorem missing_api_key_fatal_witness :
    mainRun argsTwo none (happyEnv "y") = (1, none) ∧
    stylePipelineInit none ≠ .ok { api_key := "k" } :=
  ⟨(missing_api_key_fatal argsTwo (happyEnv "y")).2.2,
   (missing_api_key_fatal argsTwo (happyEnv "y")).2.1 { api_key := "k" }⟩

/-- C9 (amended): the in-memory decoder skips without error any chunk
whose candidates field is absent, or whose first candidate carries no
content or no parts list (a chunk with a present but empty candidates
list instead raises IndexError — see the counterexample); texts of
non-empty text parts and bytes of image parts are yielded in arrival
order, as on the spec's synthetic stream. -/
theorem process_stream_skips_and_orders (c : Chunk)
    (h : c.candidates = none ∨
      (∃ cand rest, c.candidates = some (cand :: rest) ∧
        (cand.content = none ∨
          ∃ ct, cand.content = some ct ∧ ct.parts = none))) :
    (∀ pre post, _process_stream_to_memory (pre ++ c :: post) =
      _process_stream_to_memory (pre ++ post)) ∧
    _process_stream_to_memory
      [partsChunk [textPart "a"], partsChunk [imagePart [1]],
       partsChunk [textPart "b"], partsChunk [imagePart [2]],
       emptyChunk, partsChunk [imagePart [3]]] =
      .ok ([[1], [2], [3]], ["a", "b"]) := by
  constructor
  · intro pre post
    have hc : chunkParts c = .ok none := by
      rcases h with h | ⟨cand, rest, hr, h2⟩
      · simp [chunkParts, h]
      · rcases h2 with h2 | ⟨ct, hct, hp⟩
        · simp [chunkParts, hr, h2]
        · simp [chunkParts, hr, hct, hp]
    exact processStreamAux_skip c hc ([], []) pre post
  · decide

theorem process_stream_skips_and_orders_witness :
    _process_stream_to_memory
      ([partsChunk [textPart "a"]] ++ emptyChunk :: [partsChunk [imagePart [7]]]) =
      _process_stream_to_memory
      ([partsChunk [textPart "a"]] ++ [partsChunk [imagePart [7]]]) :=
  (process_stream_skips_and_orders emptyChunk (Or.inl rfl)).1
    [partsChunk [textPart "a"]] [partsChunk [imagePart [7]]]

/-- C9 counterexample: a chunk whose candidates list is present but empty
is not skipped: indexing `candidates[0]` raises IndexError, so "skips
without error any chunk carrying no candidates" fails on this input. -/
theorem process_stream_empty_candidates_errors :
    _process_stream_to_memory [{ candidates := some [] }] =
      .error "IndexError: list index out of range" ∧
    _process_stream_to_memory [{ candidates := some [] }] ≠ .ok ([], []) :=
  ⟨by decide, by decide⟩

/-- C10: a stream part carrying both non-empty inline image data and
non-empty text contributes exactly its image bytes to the images list;
its text is never appended to the texts list. -/
theorem image_data_precedes_text (acc : List (List Nat) × List String)
    (p : ResponsePart) (d : List Nat) (t : String)
    (hd : p.inline_data = some { data := some d }) (hne : d ≠ [])
    (ht : p.text = some t) (htne : t ≠ "") :
    streamStep acc p = (acc.1 ++ [d], acc.2) ∧
    _process_stream_to_memory [partsChunk [p]] = .ok ([d], []) := by
  have hb : blobBytes p = some d := by
    cases d with
    | nil => exact absurd rfl hne
    | cons x xs => simp [blobBytes, hd]
  constructor
  · simp [streamStep, hb]
  · simp [_process_stream_to_memory, processStreamAux, chunkParts, partsChunk,
      streamStep, hb]

theorem image_data_precedes_text_witness :
    streamStep ([], []) { text := some "caption", inline_data := some { data := some [9] } } =
      (([] : List (List Nat)) ++ [[9]], ([] : List String)) ∧
    _process_stream_to_memory
      [partsChunk [{ text := some "caption", inline_data := some { data := some [9] } }]] =
      .ok ([[9]], []) :=
  image_data_precedes_text ([], [])
    { text := some "caption", inline_data := some { data := some [9] } }
    [9] "caption" rfl (by decide) rfl (by decide)

end NanoBanana
